import Mathlib

/-!
Verification of the image-transformation request lifecycle of the Paperbag
repository: the fixed-window rate limiter and bounded security audit logger
(src/lib/security), the exponential-backoff retry wrapper (error-handling
utility module), and the secured transformation mutation `secureCartoonifyImage`
together with its `withSecurity` middleware (convex/security.ts).

Machine integers of the source (millisecond timestamps, counts) are modelled
as `Int`/`Nat`; JavaScript `Map` state is modelled as an insertion-ordered
association list, matching `Map.get`/`Map.set` semantics; thrown exceptions
are modelled with `Except String`, carrying the exact `ConvexError` message.
-/

deriving instance DecidableEq for Except

/-- Lookup in a JS `Map` modelled as an insertion-ordered association list:
`m.get(k)` returns the stored value or `undefined` (here `none`). -/
def mapGet (m : List (String × List Int)) (k : String) : Option (List Int) :=
  match m with
  | [] => none
  | p :: rest => if p.1 = k then some p.2 else mapGet rest k

/-- `m.set(k, v)` on a JS `Map`: replaces the value in place when the key is
present (keeping insertion order), otherwise appends a new binding. -/
def mapSet (m : List (String × List Int)) (k : String) (v : List Int) :
    List (String × List Int) :=
  match m with
  | [] => [(k, v)]
  | p :: rest => if p.1 = k then (k, v) :: rest else p :: mapSet rest k v

/-- State of the `RateLimiter` class (src/lib/security.ts): the construction
parameters `windowMs`, `maxRequests` and the per-identifier timestamp map
`this.requests`. -/
structure RateLimiter where
  windowMs : Int
  maxRequests : Nat
  requests : List (String × List Int)
deriving DecidableEq

/-- `this.requests.get(identifier) || []`. -/
def RateLimiter.stored (rl : RateLimiter) (identifier : String) : List Int :=
  (mapGet rl.requests identifier).getD []

/-- The timestamps of `identifier` still inside the window at time `now`:
`requests.filter(time => now - time < this.windowMs)`. -/
def RateLimiter.validAt (rl : RateLimiter) (now : Int) (identifier : String) :
    List Int :=
  (rl.stored identifier).filter (fun time => now - time < rl.windowMs)

/-- `RateLimiter.isAllowed(identifier)`: prune timestamps outside the window;
if the remaining count reaches `maxRequests` return `false` without writing
anything back; otherwise push `now` and store the pruned list. `Date.now()` is
passed explicitly as `now`. Returns the result and the limiter state after the
call. -/
def RateLimiter.isAllowed (rl : RateLimiter) (now : Int) (identifier : String) :
    Bool × RateLimiter :=
  let validRequests := rl.validAt now identifier
  if rl.maxRequests ≤ validRequests.length then
    (false, rl)
  else
    (true, { rl with requests := mapSet rl.requests identifier (validRequests ++ [now]) })

/-- `RateLimiter.getRemainingRequests(identifier)`:
`Math.max(0, maxRequests - validRequests.length)`. Reads the map, never
writes it (the source method contains no `this.requests.set`). -/
def RateLimiter.getRemainingRequests (rl : RateLimiter) (now : Int)
    (identifier : String) : Int :=
  max 0 ((rl.maxRequests : Int) - (rl.validAt now identifier).length)

/-- `RateLimiter.getResetTime(identifier)`: `now` when no valid timestamps
exist, otherwise `Math.min(...validRequests) + windowMs`. Read-only, like
`getRemainingRequests`. -/
def RateLimiter.getResetTime (rl : RateLimiter) (now : Int)
    (identifier : String) : Int :=
  match (rl.validAt now identifier).min? with
  | none => now
  | some oldest => oldest + rl.windowMs

/-- Consecutive `isAllowed` calls for the same identifier at the given call
times, in order; returns the final limiter state and whether every call
returned `true`. -/
def RateLimiter.callsAtTimes (rl : RateLimiter) (identifier : String) :
    List Int → RateLimiter × Bool
  | [] => (rl, true)
  | t :: ts =>
    let r := rl.isAllowed t identifier
    let rest := r.2.callsAtTimes identifier ts
    (rest.1, r.1 && rest.2)

/-- An entry of the security audit log (src/lib/security.ts): timestamp,
level, event name, structured details (modelled as string key/value pairs),
and the optional `userId` / `ip` parameters of `log`. -/
structure LogEntry where
  timestamp : Int
  level : String
  event : String
  details : List (String × String)
  userId : Option String
  ip : Option String
deriving DecidableEq

/-- State of the `SecurityAuditLogger` class: its `logs` array. -/
structure SecurityAuditLogger where
  logs : List LogEntry
deriving DecidableEq

/-- `SecurityAuditLogger.log(level, event, details, userId?, ip?)`: push the
new entry, then `this.logs = this.logs.slice(-1000)` whenever the length
exceeds 1000 (keep only the last 1000 entries). `new Date()` is passed
explicitly as `now`. -/
def SecurityAuditLogger.log (l : SecurityAuditLogger) (now : Int)
    (level event : String) (details : List (String × String))
    (userId ip : Option String) : SecurityAuditLogger :=
  let logs := l.logs ++ [⟨now, level, event, details, userId, ip⟩]
  if 1000 < logs.length then ⟨logs.drop (logs.length - 1000)⟩ else ⟨logs⟩

/-- Fold a sequence of `log` calls (each given by the entry it would build)
over the logger state. -/
def SecurityAuditLogger.logAll (l : SecurityAuditLogger) (es : List LogEntry) :
    SecurityAuditLogger :=
  es.foldl (fun acc e => acc.log e.timestamp e.level e.event e.details e.userId e.ip) l

/-- The optional filter argument of `SecurityAuditLogger.getLogs`. -/
structure LogFilter where
  level : Option String
  userId : Option String
  since : Option Int
deriving DecidableEq

/-- `SecurityAuditLogger.getLogs(filter?)`: three successive conditional
filter passes. A string field guards its pass by JS truthiness (`if
(filter.level)`), so an empty string disables the pass; `filter.since` is a
`Date` object, truthy whenever present. -/
def SecurityAuditLogger.getLogs (l : SecurityAuditLogger)
    (filter : Option LogFilter) : List LogEntry :=
  match filter with
  | none => l.logs
  | some f =>
    let l1 := match f.level with
      | some s => if s = "" then l.logs else l.logs.filter (fun log => log.level = s)
      | none => l.logs
    let l2 := match f.userId with
      | some u => if u = "" then l1 else l1.filter (fun log => log.userId = some u)
      | none => l1
    match f.since with
    | some since => l2.filter (fun log => since ≤ log.timestamp)
    | none => l2

/-- Spec-side characterization of `getLogs` filtering: an entry matches when
it passes every filter field that is present (and, for the string fields,
non-empty). -/
def entryMatches (f : LogFilter) (e : LogEntry) : Bool :=
  (match f.level with
   | some s => if s = "" then true else e.level = s
   | none => true) &&
  (match f.userId with
   | some u => if u = "" then true else e.userId = some u
   | none => true) &&
  (match f.since with
   | some since => since ≤ e.timestamp
   | none => true)

/-- `withRetry`'s loop body (error-handling utility module), with the
operation modelled as a map from attempt index to that attempt's outcome.
`fuel` is the number of retries still permitted (`maxRetries - attempt`);
when it is zero a failure of the current attempt is thrown as `lastError`.
Returns the outcome, the number of invocations of the operation, and the list
of back-off waits (`delay * 2 ^ attempt`) performed between attempts. -/
def withRetryAux {E A : Type} (op : Nat → Except E A) (delay : Int)
    (attempt : Nat) : Nat → Except E A × Nat × List Int
  | 0 => (op attempt, 1, [])
  | fuel + 1 =>
    match op attempt with
    | Except.ok a => (Except.ok a, 1, [])
    | Except.error _ =>
      let r := withRetryAux op delay (attempt + 1) fuel
      (r.1, r.2.1 + 1, delay * 2 ^ attempt :: r.2.2)

/-- `withRetry(operation, maxRetries = 3, delay = 1000)`: attempts
`0, 1, ..., maxRetries`, waiting `delay * 2 ^ attempt` after each failed
attempt except the last, and propagating the last attempt's error. -/
def withRetry {E A : Type} (op : Nat → Except E A) (maxRetries : Nat)
    (delay : Int) : Except E A × Nat × List Int :=
  withRetryAux op delay 0 maxRetries

/-- Whether an attempt outcome is a failure. -/
def isErr {E A : Type} : Except E A → Bool
  | Except.error _ => true
  | Except.ok _ => false

/-- The authenticated identity resolved by `ctx.auth.getUserIdentity()`. -/
structure UserIdentity where
  subject : String
deriving DecidableEq

/-- The part of the Convex mutation context the handler reads: the identity
that `await ctx.auth.getUserIdentity()` resolves to (`none` when the caller
is unauthenticated). -/
structure Ctx where
  identity : Option UserIdentity
deriving DecidableEq

/-- A JavaScript `Promise` object, as a value: `getUserIdentity()` returns
one. Accessing an ordinary property on the Promise object itself (without
`await`) does not see the resolved value. -/
structure JSPromise (α : Type) where
  resolvesTo : α

/-- The expression `p?.subject` where `p` is the Promise object returned by
`ctx.auth?.getUserIdentity?.()`: a Promise has no own `subject` property, so
the access yields `undefined` regardless of what the promise resolves to. -/
def JSPromise.subjectProp {α : Type} (_ : JSPromise α) : Option String :=
  none

/-- A record of the `images` table read and patched by the handler. -/
structure ImageRec where
  id : Nat
  userId : String
  originalStorageId : String
  originalImageUrl : Option String
  cartoonImageUrl : Option String
  status : String
  createdAt : Int
  updatedAt : Int
deriving DecidableEq

/-- A job handed to `ctx.scheduler.runAfter(0, internal.image.ImageGen, ...)`:
its payload fields. -/
structure SchedJob where
  imageUrl : Option String
  userId : String
  style : String
deriving DecidableEq

/-- The arguments of the `secureCartoonifyImage` mutation. -/
structure CartoonifyArgs where
  storageId : String
  style : String
  userAgent : Option String
  ipAddress : Option String
deriving DecidableEq

/-- The success value `{ success, status }` returned by the handler. -/
structure CartoonifyRes where
  success : Bool
  status : String
deriving DecidableEq

/-- The state a `secureCartoonifyImage` invocation reads and writes: the
`images` table, the audit logger and processing rate limiter singletons, the
list of jobs enqueued so far, whether (and with what message) the scheduler's
`runAfter` throws, and the current wall-clock time `Date.now()`. -/
structure SysState where
  db : List ImageRec
  audit : SecurityAuditLogger
  limiter : RateLimiter
  scheduled : List SchedJob
  schedulerError : Option String
  now : Int
deriving DecidableEq

/-- Append one audit entry (details-only call sites pass no `userId`/`ip`). -/
def logTo (st : SysState) (level event : String)
    (details : List (String × String)) : SysState :=
  { st with audit := st.audit.log st.now level event details none none }

/-- Render an optional string the way it appears in a details object
(`undefined` when absent). -/
def orUndef (o : Option String) : String :=
  o.getD "undefined"

/-- JS truthiness of an optional string: `undefined` and `""` are falsy. -/
def jsTruthyOptStr : Option String → Bool
  | none => false
  | some s => !(s = "")

/-- The fixed style whitelist of `secureCartoonifyImage`. -/
def allowedStyles : List String :=
  ["simpsons", "studio-ghibli", "family-guy", "disney", "anime", "comic-book", "south-park"]

/-- `db.patch(id, fields)`: update the record with the given id in place. -/
def dbPatch (db : List ImageRec) (i : Nat) (f : ImageRec → ImageRec) :
    List ImageRec :=
  db.map (fun r => if r.id = i then f r else r)

/-- The rate-limit identifier computed by `withSecurity`:
`ctx.auth?.getUserIdentity?.()?.subject || 'anonymous'`. `getUserIdentity`
is not awaited here, so `.subject` is read off the Promise object itself and
is `undefined`, and the `||` falls through to `'anonymous'`. -/
def rateLimitIdentifier (ctx : Ctx) : String :=
  match JSPromise.subjectProp (JSPromise.mk ctx.identity) with
  | some s => if s = "" then "anonymous" else s
  | none => "anonymous"

/-- The inner handler of `secureCartoonifyImage` (convex/security.ts): auth
re-check, style whitelist, record lookup by `originalStorageId`, ownership
check, processing/completed short-circuits, patch to `processing`, job
enqueue, and the revert-to-`pending` compensation when enqueueing throws. -/
def cartoonifyHandler (st : SysState) (ctx : Ctx) (args : CartoonifyArgs) :
    SysState × Except String CartoonifyRes :=
  match ctx.identity with
  | none => (st, Except.error "Authentication required")
  | some identity =>
    if ¬ (allowedStyles.contains args.style = true) then
      (logTo st "warning" "invalid_style_parameter"
        [("userId", identity.subject), ("style", args.style),
         ("userAgent", orUndef args.userAgent),
         ("ipAddress", orUndef args.ipAddress)],
       Except.error "Invalid cartoon style")
    else
      let images := st.db.filter (fun r => r.originalStorageId = args.storageId)
      match images.head? with
      | none => (st, Except.error "Image record not found")
      | some image =>
        if ¬ (image.userId = identity.subject) then
          (logTo st "warning" "unauthorized_image_access"
            [("userId", identity.subject), ("imageId", toString image.id),
             ("imageOwner", image.userId),
             ("userAgent", orUndef args.userAgent),
             ("ipAddress", orUndef args.ipAddress)],
           Except.error "Unauthorized access to image")
        else if image.status = "processing" then
          (st, Except.ok ⟨true, "processing"⟩)
        else if image.status = "completed" ∧ jsTruthyOptStr image.cartoonImageUrl = true then
          (st, Except.ok ⟨true, "completed"⟩)
        else
          let st1 : SysState :=
            { st with db := (dbPatch st.db image.id
                (fun r => { r with status := "processing", updatedAt := st.now })) }
          let st2 := logTo st1 "info" "image_processing_started"
            [("userId", identity.subject), ("imageId", toString image.id),
             ("style", args.style), ("userAgent", orUndef args.userAgent),
             ("ipAddress", orUndef args.ipAddress),
             ("timestamp", toString st1.now)]
          match st2.schedulerError with
          | none =>
            ({ st2 with scheduled := st2.scheduled ++
                [⟨image.originalImageUrl, image.userId, args.style⟩] },
             Except.ok ⟨true, "processing"⟩)
          | some msg =>
            let st3 : SysState :=
              { st2 with db := (dbPatch st2.db image.id
                  (fun r => { r with status := "pending", updatedAt := st2.now })) }
            (logTo st3 "error" "image_processing_scheduling_failed"
              [("userId", identity.subject), ("imageId", toString image.id),
               ("error", msg), ("timestamp", toString st3.now)],
             Except.error "Failed to schedule image generation")

/-- The `withSecurity` middleware (convex/security.ts), instantiated at the
handler type used by `secureCartoonifyImage`: authentication check, rate
limiting keyed by `rateLimitIdentifier`, the optional info audit event, then
the wrapped handler, re-throwing its errors after logging
`function_execution_error`. -/
def withSecurity
    (handler : SysState → Ctx → CartoonifyArgs → SysState × Except String CartoonifyRes)
    (useRateLimiter requireAuth : Bool) (auditEvent : Option String)
    (st : SysState) (ctx : Ctx) (args : CartoonifyArgs) :
    SysState × Except String CartoonifyRes :=
  if requireAuth && ctx.identity.isNone then
    (logTo st "warning" "unauthorized_access_attempt" [("function", "handler")],
     Except.error "Authentication required")
  else if useRateLimiter && !(st.limiter.isAllowed st.now (rateLimitIdentifier ctx)).1 then
    let rl2 := (st.limiter.isAllowed st.now (rateLimitIdentifier ctx)).2
    (logTo { st with limiter := rl2 } "warning" "rate_limit_exceeded"
      [("function", "handler"), ("identifier", rateLimitIdentifier ctx),
       ("remainingRequests", toString (rl2.getRemainingRequests st.now (rateLimitIdentifier ctx))),
       ("resetTime", toString (rl2.getResetTime st.now (rateLimitIdentifier ctx)))],
     Except.error "Rate limit exceeded. Please try again later.")
  else
    let st1 := if useRateLimiter then
        { st with limiter := (st.limiter.isAllowed st.now (rateLimitIdentifier ctx)).2 }
      else st
    let st2 := match auditEvent with
      | some ev => logTo st1 "info" ev
          [("function", "handler"),
           ("userId", orUndef (ctx.identity.map (fun i => i.subject))),
           ("timestamp", toString st1.now)]
      | none => st1
    let hr := handler st2 ctx args
    match hr.2 with
    | Except.ok v => (hr.1, Except.ok v)
    | Except.error e =>
      (logTo hr.1 "error" "function_execution_error"
        [("function", "handler"), ("error", e),
         ("userId", orUndef (ctx.identity.map (fun i => i.subject)))],
       Except.error e)

/-- The exported `secureCartoonifyImage` mutation: the handler wrapped in
`withSecurity` with the processing rate limiter, required authentication and
the `image_processing_request` audit event. -/
def secureCartoonifyImage (st : SysState) (ctx : Ctx) (args : CartoonifyArgs) :
    SysState × Except String CartoonifyRes :=
  withSecurity cartoonifyHandler true true (some "image_processing_request") st ctx args

/-- A sample image record: owned by `"alice"`, uploaded bytes at storage id
`"sid1"`, still `pending`. -/
def sampleImage : ImageRec :=
  ⟨1, "alice", "sid1", some "http://orig", none, "pending", 100, 100⟩

/-- A sample system state holding `sampleImage`, an empty audit log, the
processing rate limiter (300000 ms window, 3 requests) with no history, no
scheduled jobs and a working scheduler, at time 200. -/
def sampleState : SysState :=
  { db := [sampleImage], audit := ⟨[]⟩, limiter := ⟨300000, 3, []⟩,
    scheduled := [], schedulerError := none, now := 200 }

/-- A context authenticated as `"alice"` (the owner of `sampleImage`). -/
def sampleCtx : Ctx := ⟨some ⟨"alice"⟩⟩

/-- A context authenticated as `"mallory"` (not the owner). -/
def mallorysCtx : Ctx := ⟨some ⟨"mallory"⟩⟩

/-- Arguments naming `sampleImage` with the whitelisted style `anime`. -/
def sampleArgs : CartoonifyArgs := ⟨"sid1", "anime", none, none⟩

/-- Arguments naming `sampleImage` with the non-whitelisted style `pixar`. -/
def pixarArgs : CartoonifyArgs := ⟨"sid1", "pixar", none, none⟩

/-- `sampleState` after the shared `"anonymous"` rate-limit bucket has
already absorbed three requests at time 200. -/
def limitedState : SysState :=
  { sampleState with limiter := ⟨300000, 3, [("anonymous", [200, 200, 200])]⟩ }

/-! ## Rate limiter lemmas -/

theorem mapGet_mapSet_self (m : List (String × List Int)) (k : String)
    (v : List Int) : mapGet (mapSet m k v) k = some v := by
  induction m with
  | nil => simp [mapGet, mapSet]
  | cons p rest ih =>
    by_cases hk : p.1 = k
    · simp [mapGet, mapSet, hk]
    · simp [mapGet, mapSet, hk, ih]

theorem stored_requests_mapSet (rl : RateLimiter) (id : String) (v : List Int) :
    RateLimiter.stored { rl with requests := mapSet rl.requests id v } id = v := by
  simp [RateLimiter.stored, mapGet_mapSet_self]

theorem isAllowed_true_step (rl : RateLimiter) (now : Int) (id : String)
    (h : (rl.validAt now id).length < rl.maxRequests) :
    rl.isAllowed now id =
      (true, { rl with requests := mapSet rl.requests id (rl.validAt now id ++ [now]) }) := by
  simp [RateLimiter.isAllowed, Nat.not_le.mpr h]

theorem isAllowed_false_step (rl : RateLimiter) (now : Int) (id : String)
    (h : rl.maxRequests ≤ (rl.validAt now id).length) :
    rl.isAllowed now id = (false, rl) := by
  simp [RateLimiter.isAllowed, h]

theorem isAllowed_fresh_step (rl : RateLimiter) (t : Int) (id : String)
    (pre : List Int) (hst : rl.stored id = pre)
    (hin : ∀ a ∈ pre, t - a < rl.windowMs)
    (hlen : pre.length < rl.maxRequests) :
    (rl.isAllowed t id).1 = true
    ∧ ((rl.isAllowed t id).2).stored id = pre ++ [t]
    ∧ ((rl.isAllowed t id).2).windowMs = rl.windowMs
    ∧ ((rl.isAllowed t id).2).maxRequests = rl.maxRequests := by
  have hval : rl.validAt t id = pre := by
    unfold RateLimiter.validAt
    rw [hst]
    refine List.filter_eq_self.mpr ?_
    intro a ha
    simpa using hin a ha
  have hlt : (rl.validAt t id).length < rl.maxRequests := by rw [hval]; exact hlen
  rw [isAllowed_true_step rl t id hlt]
  exact ⟨rfl, by rw [stored_requests_mapSet, hval], rfl, rfl⟩

theorem callsAtTimes_fill (id : String) :
    ∀ (ts : List Int) (rl : RateLimiter) (pre : List Int),
      rl.stored id = pre →
      (∀ a ∈ pre ++ ts, ∀ b ∈ ts, b - a < rl.windowMs) →
      pre.length + ts.length ≤ rl.maxRequests →
      ((rl.callsAtTimes id ts).2 = true
      ∧ ((rl.callsAtTimes id ts).1).stored id = pre ++ ts
      ∧ ((rl.callsAtTimes id ts).1).windowMs = rl.windowMs
      ∧ ((rl.callsAtTimes id ts).1).maxRequests = rl.maxRequests) := by
  intro ts
  induction ts with
  | nil =>
    intro rl pre hst _ _
    exact ⟨rfl, by simpa using hst, rfl, rfl⟩
  | cons t ts ih =>
    intro rl pre hst hwin hlen
    obtain ⟨hb, hst2, hwEq, hmEq⟩ := isAllowed_fresh_step rl t id pre hst
      (fun a ha => hwin a (List.mem_append_left _ ha) t (List.mem_cons_self t ts))
      (by simp at hlen; omega)
    have hwin2 : ∀ a ∈ (pre ++ [t]) ++ ts, ∀ b ∈ ts,
        b - a < ((rl.isAllowed t id).2).windowMs := by
      intro a ha b hb2
      rw [hwEq]
      have ha2 : a ∈ pre ++ (t :: ts) := by
        rw [List.append_assoc, List.singleton_append] at ha
        exact ha
      exact hwin a ha2 b (List.mem_cons_of_mem t hb2)
    have hlen2 : (pre ++ [t]).length + ts.length ≤ ((rl.isAllowed t id).2).maxRequests := by
      rw [hmEq]
      simp at hlen ⊢
      omega
    obtain ⟨hall, hst3, hw3, hm3⟩ := ih ((rl.isAllowed t id).2) (pre ++ [t]) hst2 hwin2 hlen2
    refine ⟨?_, ?_, ?_, ?_⟩
    · simp [RateLimiter.callsAtTimes, hb, hall]
    · simpa [RateLimiter.callsAtTimes, List.append_assoc] using hst3
    · simpa [RateLimiter.callsAtTimes, hwEq] using hw3
    · simpa [RateLimiter.callsAtTimes, hmEq] using hm3

/-- C7: `RateLimiter.isAllowed` prunes timestamps older than `windowMs`,
records the current timestamp and returns `true` exactly when the remaining
valid count is strictly below `maxRequests`, and returns `false` without
recording otherwise; consequently, for a fresh identifier, after exactly
`maxRequests` allowed calls whose times all lie within one window, a next
call made while those timestamps are still inside its window returns
`false`, and a call made after the window has fully elapsed since all of
them returns `true` again. -/
theorem rateLimiter_isAllowed_spec (rl : RateLimiter) (now : Int) (id : String)
    (hm : 0 < rl.maxRequests) :
    ((rl.validAt now id).length < rl.maxRequests ↔ (rl.isAllowed now id).1 = true)
    ∧ ((rl.isAllowed now id).1 = true →
        ((rl.isAllowed now id).2).stored id = rl.validAt now id ++ [now])
    ∧ ((rl.isAllowed now id).1 = false → (rl.isAllowed now id).2 = rl)
    ∧ (∀ ts : List Int, rl.stored id = [] → ts.length = rl.maxRequests →
        (∀ a ∈ ts, ∀ b ∈ ts, b - a < rl.windowMs) →
        (rl.callsAtTimes id ts).2 = true
        ∧ (∀ t, (∀ a ∈ ts, t - a < rl.windowMs) →
            (((rl.callsAtTimes id ts).1).isAllowed t id).1 = false)
        ∧ (∀ t, (∀ a ∈ ts, rl.windowMs ≤ t - a) →
            (((rl.callsAtTimes id ts).1).isAllowed t id).1 = true)) := by
  refine ⟨?_, ?_, ?_, ?_⟩
  · constructor
    · intro h; rw [isAllowed_true_step rl now id h]
    · intro h
      by_contra hlt
      rw [isAllowed_false_step rl now id (Nat.le_of_not_lt hlt)] at h
      simp at h
  · intro h
    by_cases hlen : (rl.validAt now id).length < rl.maxRequests
    · rw [isAllowed_true_step rl now id hlen]
      exact stored_requests_mapSet rl id (rl.validAt now id ++ [now])
    · rw [isAllowed_false_step rl now id (Nat.le_of_not_lt hlen)] at h
      simp at h
  · intro h
    by_cases hlen : (rl.validAt now id).length < rl.maxRequests
    · rw [isAllowed_true_step rl now id hlen] at h
      simp at h
    · rw [isAllowed_false_step rl now id (Nat.le_of_not_lt hlen)]
  · intro ts hempty hts hwin
    obtain ⟨hall, hst, hwEq, hmEq⟩ := callsAtTimes_fill id ts rl [] hempty
      (by simpa using hwin) (by rw [hts]; simp)
    set s := (rl.callsAtTimes id ts).1 with hs
    have hstored : s.stored id = ts := by simpa using hst
    refine ⟨hall, ?_, ?_⟩
    · intro t ht
      have hval : s.validAt t id = ts := by
        unfold RateLimiter.validAt
        rw [hstored]
        refine List.filter_eq_self.mpr ?_
        intro a ha
        simpa [hwEq] using ht a ha
      have hge : s.maxRequests ≤ (s.validAt t id).length := by
        rw [hval, hts, hmEq]
      rw [isAllowed_false_step s t id hge]
    · intro t ht
      have hval : s.validAt t id = [] := by
        unfold RateLimiter.validAt
        rw [hstored]
        refine List.filter_eq_nil_iff.mpr ?_
        intro a ha
        have h2 := ht a ha
        simp only [hwEq, decide_eq_true_eq]
        omega
      have hlt : (s.validAt t id).length < s.maxRequests := by
        rw [hval, hmEq]
        simpa using hm
      rw [isAllowed_true_step s t id hlt]

/-- Witness for C7 at the configuration of the processing rate limiter
(window 300000 ms, limit 3) with a fresh identifier. -/
theorem rateLimiter_isAllowed_spec_witness :
    (0 : Int) < 300000 ∧ 0 < 3 ∧
    (((RateLimiter.mk 300000 3 []).validAt 0 "u").length < 3 ↔
        ((RateLimiter.mk 300000 3 []).isAllowed 0 "u").1 = true)
    ∧ (((RateLimiter.mk 300000 3 []).isAllowed 0 "u").1 = true →
        (((RateLimiter.mk 300000 3 []).isAllowed 0 "u").2).stored "u"
          = (RateLimiter.mk 300000 3 []).validAt 0 "u" ++ [0])
    ∧ (((RateLimiter.mk 300000 3 []).isAllowed 0 "u").1 = false →
        ((RateLimiter.mk 300000 3 []).isAllowed 0 "u").2 = RateLimiter.mk 300000 3 [])
    ∧ (∀ ts : List Int, (RateLimiter.mk 300000 3 []).stored "u" = [] → ts.length = 3 →
        (∀ a ∈ ts, ∀ b ∈ ts, b - a < (300000 : Int)) →
        ((RateLimiter.mk 300000 3 []).callsAtTimes "u" ts).2 = true
        ∧ (∀ t, (∀ a ∈ ts, t - a < (300000 : Int)) →
            ((((RateLimiter.mk 300000 3 []).callsAtTimes "u" ts).1).isAllowed t "u").1 = false)
        ∧ (∀ t, (∀ a ∈ ts, (300000 : Int) ≤ t - a) →
            ((((RateLimiter.mk 300000 3 []).callsAtTimes "u" ts).1).isAllowed t "u").1 = true)) := by
  refine ⟨by decide, by decide, ?_⟩
  have h := rateLimiter_isAllowed_spec (RateLimiter.mk 300000 3 []) 0 "u" (by decide)
  simpa using h

/-- C10: a rejected `isAllowed` call returns the limiter state unchanged (the
lazy pruning computed on that path is not written back), so the observable
answers of `isAllowed`, `getRemainingRequests` and `getResetTime` for every
identifier are unaffected by it; `getRemainingRequests` and `getResetTime`
are embedded as read-only functions because the source methods never assign
to `this.requests`. -/
theorem rateLimiter_reject_frame (rl : RateLimiter) (now : Int) (id : String)
    (h : (rl.isAllowed now id).1 = false) :
    (rl.isAllowed now id).2 = rl
    ∧ (∀ t id2,
        ((rl.isAllowed now id).2).getRemainingRequests t id2
            = rl.getRemainingRequests t id2
        ∧ ((rl.isAllowed now id).2).getResetTime t id2 = rl.getResetTime t id2
        ∧ (((rl.isAllowed now id).2).isAllowed t id2).1 = (rl.isAllowed t id2).1) := by
  have heq : (rl.isAllowed now id).2 = rl := by
    by_cases hlen : (rl.validAt now id).length < rl.maxRequests
    · rw [isAllowed_true_step rl now id hlen] at h
      simp at h
    · rw [isAllowed_false_step rl now id (Nat.le_of_not_lt hlen)]
  exact ⟨heq, fun t id2 => by rw [heq]; exact ⟨rfl, rfl, rfl⟩⟩

/-- Witness for C10: a limiter whose limit is zero rejects any call. -/
theorem rateLimiter_reject_frame_witness :
    ((RateLimiter.mk 60000 0 []).isAllowed 0 "u").1 = false
    ∧ ((RateLimiter.mk 60000 0 []).isAllowed 0 "u").2 = RateLimiter.mk 60000 0 []
    ∧ (∀ t id2,
        (((RateLimiter.mk 60000 0 []).isAllowed 0 "u").2).getRemainingRequests t id2
            = (RateLimiter.mk 60000 0 []).getRemainingRequests t id2
        ∧ (((RateLimiter.mk 60000 0 []).isAllowed 0 "u").2).getResetTime t id2
            = (RateLimiter.mk 60000 0 []).getResetTime t id2
        ∧ ((((RateLimiter.mk 60000 0 []).isAllowed 0 "u").2).isAllowed t id2).1
            = ((RateLimiter.mk 60000 0 []).isAllowed t id2).1) := by
  refine ⟨by decide, ?_⟩
  exact rateLimiter_reject_frame (RateLimiter.mk 60000 0 []) 0 "u" (by decide)

/-! ## Audit logger lemmas -/

theorem log_logs_length (l : SecurityAuditLogger) (now : Int) (lv ev : String)
    (d : List (String × String)) (u i : Option String) :
    (l.log now lv ev d u i).logs.length = min (l.logs.length + 1) 1000 := by
  unfold SecurityAuditLogger.log
  by_cases h : 1000 < l.logs.length + 1
  · simp only [List.length_append, List.length_cons, List.length_nil]
    rw [if_pos (by simpa using h)]
    simp only [List.length_drop, List.length_append, List.length_cons, List.length_nil]
    omega
  · simp only [List.length_append, List.length_cons, List.length_nil]
    rw [if_neg (by simpa using h)]
    simp only [List.length_append, List.length_cons, List.length_nil]
    omega

theorem log_logs_suffix (l : SecurityAuditLogger) (now : Int) (lv ev : String)
    (d : List (String × String)) (u i : Option String) :
    List.IsSuffix (l.log now lv ev d u i).logs
      (l.logs ++ [⟨now, lv, ev, d, u, i⟩]) := by
  unfold SecurityAuditLogger.log
  by_cases h : 1000 < (l.logs ++ [(⟨now, lv, ev, d, u, i⟩ : LogEntry)]).length
  · rw [if_pos h]
    apply List.drop_suffix
  · rw [if_neg h]

theorem logAll_length_le (es : List LogEntry) :
    ∀ l : SecurityAuditLogger, l.logs.length ≤ 1000 →
      (l.logAll es).logs.length ≤ 1000 := by
  induction es with
  | nil =>
    intro l h
    simpa [SecurityAuditLogger.logAll] using h
  | cons e rest ih =>
    intro l h
    have h1 : (l.log e.timestamp e.level e.event e.details e.userId e.ip).logs.length ≤ 1000 := by
      rw [log_logs_length]; omega
    have h2 := ih _ h1
    simpa [SecurityAuditLogger.logAll] using h2

theorem getLogs_eq_filter (l : SecurityAuditLogger) (f : LogFilter) :
    l.getLogs (some f) = l.logs.filter (entryMatches f) := by
  have h1 : (match f.level with
      | some s => if s = "" then l.logs else l.logs.filter (fun log => log.level = s)
      | none => l.logs)
      = l.logs.filter (fun e => match f.level with
          | some s => if s = "" then true else e.level = s
          | none => true) := by
    cases f.level with
    | none => simp
    | some s =>
      by_cases hs : s = ""
      · simp [hs]
      · simp [hs]
  have h2 : ∀ xs : List LogEntry, (match f.userId with
      | some u => if u = "" then xs else xs.filter (fun log => log.userId = some u)
      | none => xs)
      = xs.filter (fun e => match f.userId with
          | some u => if u = "" then true else e.userId = some u
          | none => true) := by
    intro xs
    cases f.userId with
    | none => simp
    | some u =>
      by_cases hu : u = ""
      · simp [hu]
      · simp [hu]
  have h3 : ∀ xs : List LogEntry, (match f.since with
      | some since => xs.filter (fun log => since ≤ log.timestamp)
      | none => xs)
      = xs.filter (fun e => match f.since with
          | some since => decide (since ≤ e.timestamp)
          | none => true) := by
    intro xs
    cases f.since with
    | none => simp
    | some since => simp
  simp only [SecurityAuditLogger.getLogs]
  rw [h1, h2, h3, List.filter_filter, List.filter_filter]
  refine List.filter_congr ?_
  intro e _
  simp only [entryMatches]
  cases hl : (match f.level with
      | some s => if s = "" then true else (e.level = s : Bool)
      | none => true) <;>
    cases hu : (match f.userId with
      | some u => if u = "" then true else (e.userId = some u : Bool)
      | none => true) <;>
    cases hs : (match f.since with
      | some since => decide (since ≤ e.timestamp)
      | none => true) <;>
    simp [hl, hu, hs]

/-- C9: for every sequence of `log` calls starting from a logger within its
cap, the stored audit log never holds more than 1000 entries; each `log` call
keeps a suffix of the appended log of length `min (n + 1) 1000` (so the
oldest entries are the ones evicted, FIFO), and `getLogs` returns exactly the
retained entries matching the level/userId/since filters, as a sublist of the
log (insertion order preserved). -/
theorem auditLogger_spec (l : SecurityAuditLogger) (hlen : l.logs.length ≤ 1000) :
    (∀ es : List LogEntry, (l.logAll es).logs.length ≤ 1000)
    ∧ (∀ (now : Int) (lv ev : String) (d : List (String × String))
        (u i : Option String),
        List.IsSuffix (l.log now lv ev d u i).logs
            (l.logs ++ [⟨now, lv, ev, d, u, i⟩])
        ∧ (l.log now lv ev d u i).logs.length = min (l.logs.length + 1) 1000)
    ∧ (∀ f : LogFilter,
        l.getLogs (some f) = l.logs.filter (entryMatches f)
        ∧ List.Sublist (l.getLogs (some f)) l.logs) := by
  refine ⟨fun es => logAll_length_le es l hlen, ?_, ?_⟩
  · intro now lv ev d u i
    exact ⟨log_logs_suffix l now lv ev d u i, log_logs_length l now lv ev d u i⟩
  · intro f
    refine ⟨getLogs_eq_filter l f, ?_⟩
    rw [getLogs_eq_filter l f]
    exact List.filter_sublist l.logs

/-- Witness for C9 at the empty logger. -/
theorem auditLogger_spec_witness :
    (SecurityAuditLogger.mk []).logs.length ≤ 1000
    ∧ ((∀ es : List LogEntry,
          ((SecurityAuditLogger.mk []).logAll es).logs.length ≤ 1000)
      ∧ (∀ (now : Int) (lv ev : String) (d : List (String × String))
          (u i : Option String),
          List.IsSuffix ((SecurityAuditLogger.mk []).log now lv ev d u i).logs
              ((SecurityAuditLogger.mk []).logs ++ [⟨now, lv, ev, d, u, i⟩])
          ∧ ((SecurityAuditLogger.mk []).log now lv ev d u i).logs.length
              = min ((SecurityAuditLogger.mk []).logs.length + 1) 1000)
      ∧ (∀ f : LogFilter,
          (SecurityAuditLogger.mk []).getLogs (some f)
              = (SecurityAuditLogger.mk []).logs.filter (entryMatches f)
          ∧ List.Sublist ((SecurityAuditLogger.mk []).getLogs (some f))
              (SecurityAuditLogger.mk []).logs)) :=
  ⟨by decide, auditLogger_spec (SecurityAuditLogger.mk []) (by decide)⟩

/-! ## Retry wrapper lemmas -/

theorem waits_cons (delay : Int) (attempt j : Nat) :
    delay * 2 ^ attempt :: (List.range j).map (fun i => delay * 2 ^ (attempt + 1 + i))
      = (List.range (j + 1)).map (fun i => delay * 2 ^ (attempt + i)) := by
  rw [List.range_succ_eq_map, List.map_cons, List.map_map]
  simp only [Nat.add_zero]
  congr 1
  refine List.map_congr_left ?_
  intro i _
  simp only [Function.comp, Nat.succ_eq_add_one]
  congr 2
  omega

theorem withRetryAux_allFail {E A : Type} (op : Nat → Except E A) (delay : Int) :
    ∀ (fuel attempt : Nat),
      (∀ i, attempt ≤ i → i ≤ attempt + fuel → isErr (op i) = true) →
      withRetryAux op delay attempt fuel
        = (op (attempt + fuel), fuel + 1,
           (List.range fuel).map (fun i => delay * 2 ^ (attempt + i))) := by
  intro fuel
  induction fuel with
  | zero =>
    intro attempt _
    simp [withRetryAux]
  | succ fuel ih =>
    intro attempt h
    have h0 : isErr (op attempt) = true := h attempt le_rfl (by omega)
    cases hop : op attempt with
    | ok a => rw [hop] at h0; simp [isErr] at h0
    | error e =>
      have hrec := ih (attempt + 1) (fun i h1 h2 => h i (by omega) (by omega))
      have harg : attempt + 1 + fuel = attempt + (fuel + 1) := by omega
      simp only [withRetryAux, hop, hrec, harg]
      exact congrArg _ (congrArg _ (waits_cons delay attempt fuel))

theorem withRetryAux_firstOk {E A : Type} (op : Nat → Except E A) (delay : Int) :
    ∀ (j fuel attempt : Nat) (a : A), j ≤ fuel → op (attempt + j) = Except.ok a →
      (∀ i, attempt ≤ i → i < attempt + j → isErr (op i) = true) →
      withRetryAux op delay attempt fuel
        = (Except.ok a, j + 1,
           (List.range j).map (fun i => delay * 2 ^ (attempt + i))) := by
  intro j
  induction j with
  | zero =>
    intro fuel attempt a _ hok _
    rw [Nat.add_zero] at hok
    cases fuel with
    | zero => simp [withRetryAux, hok]
    | succ fuel => simp [withRetryAux, hok]
  | succ j ih =>
    intro fuel attempt a hj hok herr
    have h0 : isErr (op attempt) = true := herr attempt le_rfl (by omega)
    cases hop : op attempt with
    | ok b => rw [hop] at h0; simp [isErr] at h0
    | error e =>
      cases fuel with
      | zero => omega
      | succ fuel =>
        have hok2 : op (attempt + 1 + j) = Except.ok a := by
          rw [show attempt + 1 + j = attempt + (j + 1) from by omega]; exact hok
        have hrec := ih fuel (attempt + 1) a (by omega) hok2
          (fun i h1 h2 => herr i (by omega) (by omega))
        simp only [withRetryAux, hop, hrec]
        exact congrArg _ (congrArg _ (waits_cons delay attempt j))

/-- C8: `withRetry(operation, maxRetries, baseDelay)` on an operation that
fails on every attempt invokes the operation exactly `maxRetries + 1` times,
waits `baseDelay * 2 ^ attempt` between consecutive attempts, and propagates
the error of the final attempt (attempt index `maxRetries`) unchanged; if
some attempt succeeds first, its result is returned after exactly that many
invocations and no further attempts are made. -/
theorem withRetry_spec {E A : Type} (op : Nat → Except E A) (maxRetries : Nat)
    (delay : Int) :
    ((∀ i, i ≤ maxRetries → isErr (op i) = true) →
      withRetry op maxRetries delay
        = (op maxRetries, maxRetries + 1,
           (List.range maxRetries).map (fun i => delay * 2 ^ i)))
    ∧ (∀ (j : Nat) (a : A), j ≤ maxRetries → op j = Except.ok a →
        (∀ i, i < j → isErr (op i) = true) →
        withRetry op maxRetries delay
          = (Except.ok a, j + 1, (List.range j).map (fun i => delay * 2 ^ i))) := by
  constructor
  · intro h
    have := withRetryAux_allFail op delay maxRetries 0
      (fun i h1 h2 => h i (by omega))
    simpa [withRetry] using this
  · intro j a hj hok herr
    have := withRetryAux_firstOk op delay j maxRetries 0 a hj
      (by simpa using hok) (fun i _ h2 => herr i (by omega))
    simpa [withRetry] using this

/-- Witness for C8: the operation failing at every attempt with its attempt
index as the error, with the source defaults `maxRetries = 3`,
`delay = 1000`. -/
theorem withRetry_spec_witness :
    (∀ i, i ≤ 3 → isErr ((fun n => (Except.error n : Except Nat Unit)) i) = true)
    ∧ withRetry (fun n => (Except.error n : Except Nat Unit)) 3 1000
        = ((fun n => (Except.error n : Except Nat Unit)) 3, 3 + 1,
           (List.range 3).map (fun i => 1000 * 2 ^ i)) :=
  ⟨fun _ _ => rfl,
   (withRetry_spec (fun n => (Except.error n : Except Nat Unit)) 3 1000).1
     (fun _ _ => rfl)⟩

/-! ## Transformation request handler lemmas -/

theorem secureCartoonify_eq_body (st : SysState) (ctx : Ctx)
    (args : CartoonifyArgs) (u : String) (hid : ctx.identity = some ⟨u⟩)
    (hrl : (st.limiter.isAllowed st.now (rateLimitIdentifier ctx)).1 = true) :
    secureCartoonifyImage st ctx args =
      (let st2 := logTo
          { st with limiter := (st.limiter.isAllowed st.now (rateLimitIdentifier ctx)).2 }
          "info" "image_processing_request"
          [("function", "handler"),
           ("userId", orUndef (ctx.identity.map (fun i => i.subject))),
           ("timestamp", toString st.now)]
       let hr := cartoonifyHandler st2 ctx args
       match hr.2 with
       | Except.ok v => (hr.1, Except.ok v)
       | Except.error e =>
         (logTo hr.1 "error" "function_execution_error"
           [("function", "handler"), ("error", e),
            ("userId", orUndef (ctx.identity.map (fun i => i.subject)))],
          Except.error e)) := by
  unfold secureCartoonifyImage withSecurity
  rw [hid]
  simp [hrl]

theorem cartoonifyHandler_invalidStyle (st : SysState) (ctx : Ctx)
    (args : CartoonifyArgs) (u : String) (hid : ctx.identity = some ⟨u⟩)
    (hstyle : allowedStyles.contains args.style = false) :
    cartoonifyHandler st ctx args =
      (logTo st "warning" "invalid_style_parameter"
        [("userId", u), ("style", args.style),
         ("userAgent", orUndef args.userAgent),
         ("ipAddress", orUndef args.ipAddress)],
       Except.error "Invalid cartoon style") := by
  unfold cartoonifyHandler
  rw [hid]
  have hmem : ¬ args.style ∈ allowedStyles := by simpa using hstyle
  simp [hmem]

theorem cartoonifyHandler_unauthorized (st : SysState) (ctx : Ctx)
    (args : CartoonifyArgs) (u : String) (image : ImageRec)
    (hid : ctx.identity = some ⟨u⟩)
    (hstyle : allowedStyles.contains args.style = true)
    (hfind : (st.db.filter (fun r => r.originalStorageId = args.storageId)).head?
        = some image)
    (hown : ¬ image.userId = u) :
    cartoonifyHandler st ctx args =
      (logTo st "warning" "unauthorized_image_access"
        [("userId", u), ("imageId", toString image.id),
         ("imageOwner", image.userId),
         ("userAgent", orUndef args.userAgent),
         ("ipAddress", orUndef args.ipAddress)],
       Except.error "Unauthorized access to image") := by
  unfold cartoonifyHandler
  rw [hid]
  have hmem : args.style ∈ allowedStyles := by simpa using hstyle
  simp [hmem, hfind, hown]

theorem cartoonifyHandler_processing (st : SysState) (ctx : Ctx)
    (args : CartoonifyArgs) (u : String) (image : ImageRec)
    (hid : ctx.identity = some ⟨u⟩)
    (hstyle : allowedStyles.contains args.style = true)
    (hfind : (st.db.filter (fun r => r.originalStorageId = args.storageId)).head?
        = some image)
    (hown : image.userId = u)
    (hproc : image.status = "processing") :
    cartoonifyHandler st ctx args = (st, Except.ok ⟨true, "processing"⟩) := by
  unfold cartoonifyHandler
  rw [hid]
  have hmem : args.style ∈ allowedStyles := by simpa using hstyle
  simp [hmem, hfind, hown, hproc]

theorem cartoonifyHandler_completed (st : SysState) (ctx : Ctx)
    (args : CartoonifyArgs) (u : String) (image : ImageRec)
    (hid : ctx.identity = some ⟨u⟩)
    (hstyle : allowedStyles.contains args.style = true)
    (hfind : (st.db.filter (fun r => r.originalStorageId = args.storageId)).head?
        = some image)
    (hown : image.userId = u)
    (hcomp : image.status = "completed")
    (hurl : jsTruthyOptStr image.cartoonImageUrl = true) :
    cartoonifyHandler st ctx args = (st, Except.ok ⟨true, "completed"⟩) := by
  unfold cartoonifyHandler
  rw [hid]
  have hnp : ¬ image.status = "processing" := by rw [hcomp]; decide
  have hmem : args.style ∈ allowedStyles := by simpa using hstyle
  simp [hmem, hfind, hown, hnp, hcomp, hurl]

theorem cartoonifyHandler_go (st : SysState) (ctx : Ctx)
    (args : CartoonifyArgs) (u : String) (image : ImageRec)
    (hid : ctx.identity = some ⟨u⟩)
    (hstyle : allowedStyles.contains args.style = true)
    (hfind : (st.db.filter (fun r => r.originalStorageId = args.storageId)).head?
        = some image)
    (hown : image.userId = u)
    (hnp : ¬ image.status = "processing")
    (hnc : ¬ (image.status = "completed" ∧ jsTruthyOptStr image.cartoonImageUrl = true))
    (hsched : st.schedulerError = none) :
    cartoonifyHandler st ctx args =
      ({ st with
          db := dbPatch st.db image.id
            (fun r => { r with status := "processing", updatedAt := st.now }),
          audit := st.audit.log st.now "info" "image_processing_started"
            [("userId", u), ("imageId", toString image.id),
             ("style", args.style), ("userAgent", orUndef args.userAgent),
             ("ipAddress", orUndef args.ipAddress),
             ("timestamp", toString st.now)] none none,
          scheduled := st.scheduled ++
            [⟨image.originalImageUrl, image.userId, args.style⟩] },
       Except.ok ⟨true, "processing"⟩) := by
  unfold cartoonifyHandler
  rw [hid]
  have hmem : args.style ∈ allowedStyles := by simpa using hstyle
  simp [hmem, hfind, hown, hnp, hnc, hsched, logTo]

theorem cartoonifyHandler_schedFail (st : SysState) (ctx : Ctx)
    (args : CartoonifyArgs) (u : String) (image : ImageRec) (msg : String)
    (hid : ctx.identity = some ⟨u⟩)
    (hstyle : allowedStyles.contains args.style = true)
    (hfind : (st.db.filter (fun r => r.originalStorageId = args.storageId)).head?
        = some image)
    (hown : image.userId = u)
    (hnp : ¬ image.status = "processing")
    (hnc : ¬ (image.status = "completed" ∧ jsTruthyOptStr image.cartoonImageUrl = true))
    (hsched : st.schedulerError = some msg) :
    cartoonifyHandler st ctx args =
      ({ st with
          db := dbPatch
            (dbPatch st.db image.id
              (fun r => { r with status := "processing", updatedAt := st.now }))
            image.id
            (fun r => { r with status := "pending", updatedAt := st.now }),
          audit := (st.audit.log st.now "info" "image_processing_started"
            [("userId", u), ("imageId", toString image.id),
             ("style", args.style), ("userAgent", orUndef args.userAgent),
             ("ipAddress", orUndef args.ipAddress),
             ("timestamp", toString st.now)] none none).log st.now
              "error" "image_processing_scheduling_failed"
              [("userId", u), ("imageId", toString image.id),
               ("error", msg), ("timestamp", toString st.now)] none none },
       Except.error "Failed to schedule image generation") := by
  unfold cartoonifyHandler
  rw [hid]
  have hmem : args.style ∈ allowedStyles := by simpa using hstyle
  simp [hmem, hfind, hown, hnp, hnc, hsched, logTo]

theorem auditLogger_logs_mk (xs : List LogEntry) :
    (SecurityAuditLogger.mk xs).logs = xs := rfl

theorem log_logs_snoc (l : SecurityAuditLogger) (now : Int) (lv ev : String)
    (d : List (String × String)) (u i : Option String) :
    ∃ init, (l.log now lv ev d u i).logs = init ++ [⟨now, lv, ev, d, u, i⟩] := by
  unfold SecurityAuditLogger.log
  by_cases h : 1000 < (l.logs ++ [(⟨now, lv, ev, d, u, i⟩ : LogEntry)]).length
  · rw [if_pos h, auditLogger_logs_mk]
    simp only [List.length_append, List.length_cons, List.length_nil] at h
    rw [List.drop_append_of_le_length
      (by simp only [List.length_append, List.length_cons, List.length_nil]; omega)]
    exact ⟨_, rfl⟩
  · rw [if_neg h, auditLogger_logs_mk]
    exact ⟨l.logs, rfl⟩

theorem mem_log_of_snoc (init : List LogEntry) (x : LogEntry) (now : Int)
    (lv ev : String) (d : List (String × String)) (u i : Option String) :
    x ∈ ((SecurityAuditLogger.mk (init ++ [x])).log now lv ev d u i).logs := by
  unfold SecurityAuditLogger.log
  rw [auditLogger_logs_mk]
  by_cases h : 1000 < ((init ++ [x]) ++ [(⟨now, lv, ev, d, u, i⟩ : LogEntry)]).length
  · rw [if_pos h, auditLogger_logs_mk]
    simp only [List.length_append, List.length_cons, List.length_nil] at h
    rw [List.append_assoc, List.drop_append_of_le_length
      (by simp only [List.length_append, List.length_cons, List.length_nil]; omega)]
    simp
  · rw [if_neg h, auditLogger_logs_mk]
    simp

theorem mem_log_log (l : SecurityAuditLogger) (n1 n2 : Int)
    (lv1 ev1 lv2 ev2 : String) (d1 d2 : List (String × String))
    (u1 i1 u2 i2 : Option String) :
    (⟨n1, lv1, ev1, d1, u1, i1⟩ : LogEntry)
      ∈ ((l.log n1 lv1 ev1 d1 u1 i1).log n2 lv2 ev2 d2 u2 i2).logs := by
  obtain ⟨init, hinit⟩ := log_logs_snoc l n1 lv1 ev1 d1 u1 i1
  have hrepr : l.log n1 lv1 ev1 d1 u1 i1
      = SecurityAuditLogger.mk (init ++ [⟨n1, lv1, ev1, d1, u1, i1⟩]) := by
    cases hL : l.log n1 lv1 ev1 d1 u1 i1 with
    | mk xs => rw [hL] at hinit; simp at hinit; rw [hinit]
  rw [hrepr]
  exact mem_log_of_snoc init _ n2 lv2 ev2 d2 u2 i2

theorem mem_dbPatch_id (db : List ImageRec) (i : Nat) (f : ImageRec → ImageRec)
    (r : ImageRec) (hr : r ∈ dbPatch db i f) (hi : r.id = i) :
    ∃ r0, r0 ∈ db ∧ r0.id = i ∧ r = f r0 := by
  unfold dbPatch at hr
  obtain ⟨r0, hr0, hre⟩ := List.mem_map.mp hr
  by_cases h : r0.id = i
  · exact ⟨r0, hr0, h, by rw [← hre, if_pos h]⟩
  · exfalso
    rw [← hre] at hi
    rw [if_neg h] at hi
    exact h hi

/-- C1: an authenticated caller owning the record resolved from the given
origin-storage reference, whose status is neither `processing` nor
`completed` with a derived URL, calling with a whitelisted style while the
rate limiter permits and the scheduler enqueue succeeds: the record is
patched to `processing` with `updatedAt` set to the current time, the
generation job is enqueued, and the call returns success with status
`processing`. -/
theorem secureCartoonify_success (st : SysState) (ctx : Ctx)
    (args : CartoonifyArgs) (u : String) (image : ImageRec)
    (hid : ctx.identity = some ⟨u⟩)
    (hrl : (st.limiter.isAllowed st.now (rateLimitIdentifier ctx)).1 = true)
    (hstyle : allowedStyles.contains args.style = true)
    (hfind : (st.db.filter (fun r => r.originalStorageId = args.storageId)).head?
        = some image)
    (hown : image.userId = u)
    (hnp : ¬ image.status = "processing")
    (hnc : ¬ (image.status = "completed" ∧ jsTruthyOptStr image.cartoonImageUrl = true))
    (hsched : st.schedulerError = none) :
    (secureCartoonifyImage st ctx args).2 = Except.ok ⟨true, "processing"⟩
    ∧ (secureCartoonifyImage st ctx args).1.db
        = dbPatch st.db image.id
            (fun r => { r with status := "processing", updatedAt := st.now })
    ∧ (∀ r, r ∈ (secureCartoonifyImage st ctx args).1.db → r.id = image.id →
        r.status = "processing" ∧ r.updatedAt = st.now)
    ∧ (secureCartoonifyImage st ctx args).1.scheduled
        = st.scheduled ++ [⟨image.originalImageUrl, image.userId, args.style⟩] := by
  have hmain : (secureCartoonifyImage st ctx args).2 = Except.ok ⟨true, "processing"⟩
      ∧ (secureCartoonifyImage st ctx args).1.db
          = dbPatch st.db image.id
              (fun r => { r with status := "processing", updatedAt := st.now })
      ∧ (secureCartoonifyImage st ctx args).1.scheduled
          = st.scheduled ++ [⟨image.originalImageUrl, image.userId, args.style⟩] := by
    rw [secureCartoonify_eq_body st ctx args u hid hrl]
    simp only [logTo]
    rw [cartoonifyHandler_go _ ctx args u image hid hstyle (by simpa using hfind)
      hown hnp hnc (by simpa using hsched)]
    simp
  refine ⟨hmain.1, hmain.2.1, ?_, hmain.2.2⟩
  intro r hr hrid
  rw [hmain.2.1] at hr
  obtain ⟨r0, _, _, hre⟩ := mem_dbPatch_id _ _ _ r hr hrid
  rw [hre]
  exact ⟨rfl, rfl⟩

/-- Witness for C1: `"alice"` requests style `anime` on her own pending
record in `sampleState`. -/
theorem secureCartoonify_success_witness :
    sampleCtx.identity = some ⟨"alice"⟩
    ∧ (sampleState.limiter.isAllowed sampleState.now (rateLimitIdentifier sampleCtx)).1 = true
    ∧ allowedStyles.contains sampleArgs.style = true
    ∧ (sampleState.db.filter
        (fun r => r.originalStorageId = sampleArgs.storageId)).head? = some sampleImage
    ∧ sampleImage.userId = "alice"
    ∧ ¬ sampleImage.status = "processing"
    ∧ ¬ (sampleImage.status = "completed" ∧ jsTruthyOptStr sampleImage.cartoonImageUrl = true)
    ∧ sampleState.schedulerError = none
    ∧ ((secureCartoonifyImage sampleState sampleCtx sampleArgs).2
        = Except.ok ⟨true, "processing"⟩
      ∧ (secureCartoonifyImage sampleState sampleCtx sampleArgs).1.db
          = dbPatch sampleState.db sampleImage.id
              (fun r => { r with status := "processing", updatedAt := sampleState.now })
      ∧ (∀ r, r ∈ (secureCartoonifyImage sampleState sampleCtx sampleArgs).1.db →
          r.id = sampleImage.id → r.status = "processing" ∧ r.updatedAt = sampleState.now)
      ∧ (secureCartoonifyImage sampleState sampleCtx sampleArgs).1.scheduled
          = sampleState.scheduled
              ++ [⟨sampleImage.originalImageUrl, sampleImage.userId, sampleArgs.style⟩]) :=
  ⟨by decide, by decide, by decide, by decide, by decide, by decide, by decide, by decide,
   secureCartoonify_success sampleState sampleCtx sampleArgs "alice" sampleImage
     (by decide) (by decide) (by decide) (by decide) (by decide) (by decide)
     (by decide) (by decide)⟩

/-- C2: when the scheduler enqueue throws, the record is reverted to
`pending` with a refreshed `updatedAt` (so it is never left at
`processing`), an error audit event carrying the underlying failure reason
is logged, no job is enqueued, and the call fails with the
scheduling-failure error. -/
theorem secureCartoonify_schedulingFailure (st : SysState) (ctx : Ctx)
    (args : CartoonifyArgs) (u : String) (image : ImageRec) (msg : String)
    (hid : ctx.identity = some ⟨u⟩)
    (hrl : (st.limiter.isAllowed st.now (rateLimitIdentifier ctx)).1 = true)
    (hstyle : allowedStyles.contains args.style = true)
    (hfind : (st.db.filter (fun r => r.originalStorageId = args.storageId)).head?
        = some image)
    (hown : image.userId = u)
    (hnp : ¬ image.status = "processing")
    (hnc : ¬ (image.status = "completed" ∧ jsTruthyOptStr image.cartoonImageUrl = true))
    (hsched : st.schedulerError = some msg) :
    (secureCartoonifyImage st ctx args).2
        = Except.error "Failed to schedule image generation"
    ∧ (∀ r, r ∈ (secureCartoonifyImage st ctx args).1.db → r.id = image.id →
        r.status = "pending" ∧ r.updatedAt = st.now)
    ∧ (∃ e, e ∈ (secureCartoonifyImage st ctx args).1.audit.logs
        ∧ e.level = "error" ∧ e.event = "image_processing_scheduling_failed"
        ∧ ("error", msg) ∈ e.details)
    ∧ (secureCartoonifyImage st ctx args).1.scheduled = st.scheduled := by
  have hmain : (secureCartoonifyImage st ctx args).2
        = Except.error "Failed to schedule image generation"
      ∧ (secureCartoonifyImage st ctx args).1.db
          = dbPatch
              (dbPatch st.db image.id
                (fun r => { r with status := "processing", updatedAt := st.now }))
              image.id
              (fun r => { r with status := "pending", updatedAt := st.now })
      ∧ (secureCartoonifyImage st ctx args).1.audit
          = (((st.audit.log st.now "info" "image_processing_request"
                [("function", "handler"),
                 ("userId", orUndef (ctx.identity.map (fun i => i.subject))),
                 ("timestamp", toString st.now)] none none).log st.now
                "info" "image_processing_started"
                [("userId", u), ("imageId", toString image.id),
                 ("style", args.style), ("userAgent", orUndef args.userAgent),
                 ("ipAddress", orUndef args.ipAddress),
                 ("timestamp", toString st.now)] none none).log st.now
              "error" "image_processing_scheduling_failed"
              [("userId", u), ("imageId", toString image.id),
               ("error", msg), ("timestamp", toString st.now)] none none).log st.now
              "error" "function_execution_error"
              [("function", "handler"),
               ("error", "Failed to schedule image generation"),
               ("userId", orUndef (ctx.identity.map (fun i => i.subject)))] none none
      ∧ (secureCartoonifyImage st ctx args).1.scheduled = st.scheduled := by
    rw [secureCartoonify_eq_body st ctx args u hid hrl]
    simp only [logTo]
    rw [cartoonifyHandler_schedFail _ ctx args u image msg hid hstyle
      (by simpa using hfind) hown hnp hnc (by simpa using hsched)]
    simp [logTo]
  refine ⟨hmain.1, ?_, ?_, hmain.2.2.2⟩
  · intro r hr hrid
    rw [hmain.2.1] at hr
    obtain ⟨r0, _, _, hre⟩ := mem_dbPatch_id _ _ _ r hr hrid
    rw [hre]
    exact ⟨rfl, rfl⟩
  · refine ⟨⟨st.now, "error", "image_processing_scheduling_failed",
      [("userId", u), ("imageId", toString image.id),
       ("error", msg), ("timestamp", toString st.now)], none, none⟩, ?_, rfl, rfl, ?_⟩
    · rw [hmain.2.2.1]
      exact mem_log_log _ st.now st.now "error" "image_processing_scheduling_failed"
        "error" "function_execution_error" _ _ none none none none
    · simp

/-- Witness for C2: same scenario as the C1 witness but the scheduler throws
`"boom"`. -/
theorem secureCartoonify_schedulingFailure_witness :
    sampleCtx.identity = some ⟨"alice"⟩
    ∧ (({ sampleState with schedulerError := some "boom" } : SysState).limiter.isAllowed
        ({ sampleState with schedulerError := some "boom" } : SysState).now
        (rateLimitIdentifier sampleCtx)).1 = true
    ∧ allowedStyles.contains sampleArgs.style = true
    ∧ (({ sampleState with schedulerError := some "boom" } : SysState).db.filter
        (fun r => r.originalStorageId = sampleArgs.storageId)).head? = some sampleImage
    ∧ sampleImage.userId = "alice"
    ∧ ¬ sampleImage.status = "processing"
    ∧ ¬ (sampleImage.status = "completed" ∧ jsTruthyOptStr sampleImage.cartoonImageUrl = true)
    ∧ ({ sampleState with schedulerError := some "boom" } : SysState).schedulerError = some "boom"
    ∧ ((secureCartoonifyImage { sampleState with schedulerError := some "boom" }
          sampleCtx sampleArgs).2 = Except.error "Failed to schedule image generation"
      ∧ (∀ r, r ∈ (secureCartoonifyImage { sampleState with schedulerError := some "boom" }
            sampleCtx sampleArgs).1.db → r.id = sampleImage.id →
          r.status = "pending"
          ∧ r.updatedAt = ({ sampleState with schedulerError := some "boom" } : SysState).now)
      ∧ (∃ e, e ∈ (secureCartoonifyImage { sampleState with schedulerError := some "boom" }
            sampleCtx sampleArgs).1.audit.logs
          ∧ e.level = "error" ∧ e.event = "image_processing_scheduling_failed"
          ∧ ("error", "boom") ∈ e.details)
      ∧ (secureCartoonifyImage { sampleState with schedulerError := some "boom" }
          sampleCtx sampleArgs).1.scheduled
          = ({ sampleState with schedulerError := some "boom" } : SysState).scheduled) :=
  ⟨by decide, by decide, by decide, by decide, by decide, by decide, by decide, by decide,
   secureCartoonify_schedulingFailure { sampleState with schedulerError := some "boom" }
     sampleCtx sampleArgs "alice" sampleImage "boom"
     (by decide) (by decide) (by decide) (by decide) (by decide) (by decide)
     (by decide) (by decide)⟩

/-- C3: for an authenticated owner with a valid style and a permitted rate
limit, a record already `processing` yields success with status `processing`
and a record `completed` with a truthy derived URL yields success with
status `completed`; in both cases the `images` table is left untouched (in
particular `updatedAt`) and no job is scheduled. -/
theorem secureCartoonify_idempotent (st : SysState) (ctx : Ctx)
    (args : CartoonifyArgs) (u : String) (image : ImageRec)
    (hid : ctx.identity = some ⟨u⟩)
    (hrl : (st.limiter.isAllowed st.now (rateLimitIdentifier ctx)).1 = true)
    (hstyle : allowedStyles.contains args.style = true)
    (hfind : (st.db.filter (fun r => r.originalStorageId = args.storageId)).head?
        = some image)
    (hown : image.userId = u) :
    (image.status = "processing" →
      ((secureCartoonifyImage st ctx args).2 = Except.ok ⟨true, "processing"⟩
       ∧ (secureCartoonifyImage st ctx args).1.db = st.db
       ∧ (secureCartoonifyImage st ctx args).1.scheduled = st.scheduled))
    ∧ (image.status = "completed" → jsTruthyOptStr image.cartoonImageUrl = true →
      ((secureCartoonifyImage st ctx args).2 = Except.ok ⟨true, "completed"⟩
       ∧ (secureCartoonifyImage st ctx args).1.db = st.db
       ∧ (secureCartoonifyImage st ctx args).1.scheduled = st.scheduled)) := by
  constructor
  · intro hproc
    rw [secureCartoonify_eq_body st ctx args u hid hrl]
    simp only [logTo]
    rw [cartoonifyHandler_processing _ ctx args u image hid hstyle
      (by simpa using hfind) hown hproc]
    simp
  · intro hcomp hurl
    rw [secureCartoonify_eq_body st ctx args u hid hrl]
    simp only [logTo]
    rw [cartoonifyHandler_completed _ ctx args u image hid hstyle
      (by simpa using hfind) hown hcomp hurl]
    simp

/-- Witness for C3: `"alice"` re-requests a record already `processing`. -/
theorem secureCartoonify_idempotent_witness :
    sampleCtx.identity = some ⟨"alice"⟩
    ∧ (({ sampleState with db := [{ sampleImage with status := "processing" }] } : SysState).limiter.isAllowed
        ({ sampleState with db := [{ sampleImage with status := "processing" }] } : SysState).now
        (rateLimitIdentifier sampleCtx)).1 = true
    ∧ allowedStyles.contains sampleArgs.style = true
    ∧ (({ sampleState with db := [{ sampleImage with status := "processing" }] } : SysState).db.filter
        (fun r => r.originalStorageId = sampleArgs.storageId)).head?
        = some { sampleImage with status := "processing" }
    ∧ ({ sampleImage with status := "processing" } : ImageRec).userId = "alice"
    ∧ ((({ sampleImage with status := "processing" } : ImageRec).status = "processing" →
        ((secureCartoonifyImage { sampleState with db := [{ sampleImage with status := "processing" }] }
            sampleCtx sampleArgs).2 = Except.ok ⟨true, "processing"⟩
         ∧ (secureCartoonifyImage { sampleState with db := [{ sampleImage with status := "processing" }] }
            sampleCtx sampleArgs).1.db
            = ({ sampleState with db := [{ sampleImage with status := "processing" }] } : SysState).db
         ∧ (secureCartoonifyImage { sampleState with db := [{ sampleImage with status := "processing" }] }
            sampleCtx sampleArgs).1.scheduled
            = ({ sampleState with db := [{ sampleImage with status := "processing" }] } : SysState).scheduled))
      ∧ (({ sampleImage with status := "processing" } : ImageRec).status = "completed" →
          jsTruthyOptStr ({ sampleImage with status := "processing" } : ImageRec).cartoonImageUrl = true →
        ((secureCartoonifyImage { sampleState with db := [{ sampleImage with status := "processing" }] }
            sampleCtx sampleArgs).2 = Except.ok ⟨true, "completed"⟩
         ∧ (secureCartoonifyImage { sampleState with db := [{ sampleImage with status := "processing" }] }
            sampleCtx sampleArgs).1.db
            = ({ sampleState with db := [{ sampleImage with status := "processing" }] } : SysState).db
         ∧ (secureCartoonifyImage { sampleState with db := [{ sampleImage with status := "processing" }] }
            sampleCtx sampleArgs).1.scheduled
            = ({ sampleState with db := [{ sampleImage with status := "processing" }] } : SysState).scheduled))) :=
  ⟨by decide, by decide, by decide, by decide, by decide,
   secureCartoonify_idempotent
     { sampleState with db := [{ sampleImage with status := "processing" }] }
     sampleCtx sampleArgs "alice" { sampleImage with status := "processing" }
     (by decide) (by decide) (by decide) (by decide) (by decide)⟩

/-- C5: for an authenticated caller with a permitted rate limit, any style
outside the whitelist (the empty string included) fails with the invalid
style error, logs a security warning carrying the offending style, leaves
the `images` table and the job queue untouched, and is rejected before any
record lookup: the outcome is the same whatever the `images` table holds. -/
theorem secureCartoonify_invalidStyle (st : SysState) (ctx : Ctx)
    (args : CartoonifyArgs) (u : String)
    (hid : ctx.identity = some ⟨u⟩)
    (hrl : (st.limiter.isAllowed st.now (rateLimitIdentifier ctx)).1 = true)
    (hstyle : allowedStyles.contains args.style = false) :
    (secureCartoonifyImage st ctx args).2 = Except.error "Invalid cartoon style"
    ∧ (secureCartoonifyImage st ctx args).1.db = st.db
    ∧ (secureCartoonifyImage st ctx args).1.scheduled = st.scheduled
    ∧ (∃ e, e ∈ (secureCartoonifyImage st ctx args).1.audit.logs
        ∧ e.level = "warning" ∧ e.event = "invalid_style_parameter"
        ∧ ("style", args.style) ∈ e.details ∧ ("userId", u) ∈ e.details)
    ∧ (∀ db2 : List ImageRec,
        (secureCartoonifyImage { st with db := db2 } ctx args).2
          = Except.error "Invalid cartoon style") := by
  have main : ∀ s : SysState,
      (s.limiter.isAllowed s.now (rateLimitIdentifier ctx)).1 = true →
      ((secureCartoonifyImage s ctx args).2 = Except.error "Invalid cartoon style"
      ∧ (secureCartoonifyImage s ctx args).1.db = s.db
      ∧ (secureCartoonifyImage s ctx args).1.scheduled = s.scheduled
      ∧ (secureCartoonifyImage s ctx args).1.audit
          = ((s.audit.log s.now "info" "image_processing_request"
              [("function", "handler"),
               ("userId", orUndef (ctx.identity.map (fun i => i.subject))),
               ("timestamp", toString s.now)] none none).log s.now
              "warning" "invalid_style_parameter"
              [("userId", u), ("style", args.style),
               ("userAgent", orUndef args.userAgent),
               ("ipAddress", orUndef args.ipAddress)] none none).log s.now
              "error" "function_execution_error"
              [("function", "handler"), ("error", "Invalid cartoon style"),
               ("userId", orUndef (ctx.identity.map (fun i => i.subject)))] none none) := by
    intro s hs
    rw [secureCartoonify_eq_body s ctx args u hid hs]
    simp only [logTo]
    rw [cartoonifyHandler_invalidStyle _ ctx args u hid hstyle]
    simp [logTo]
  obtain ⟨h1, h2, h3, h4⟩ := main st hrl
  refine ⟨h1, h2, h3, ?_, ?_⟩
  · refine ⟨⟨st.now, "warning", "invalid_style_parameter",
      [("userId", u), ("style", args.style),
       ("userAgent", orUndef args.userAgent),
       ("ipAddress", orUndef args.ipAddress)], none, none⟩, ?_, rfl, rfl, ?_, ?_⟩
    · rw [h4]
      exact mem_log_log _ st.now st.now "warning" "invalid_style_parameter"
        "error" "function_execution_error" _ _ none none none none
    · simp
    · simp
  · intro db2
    exact (main { st with db := db2 } (by simpa using hrl)).1

/-- Witness for C5: `"alice"` requests the non-whitelisted style `pixar`. -/
theorem secureCartoonify_invalidStyle_witness :
    sampleCtx.identity = some ⟨"alice"⟩
    ∧ (sampleState.limiter.isAllowed sampleState.now (rateLimitIdentifier sampleCtx)).1 = true
    ∧ allowedStyles.contains pixarArgs.style = false
    ∧ ((secureCartoonifyImage sampleState sampleCtx pixarArgs).2
          = Except.error "Invalid cartoon style"
      ∧ (secureCartoonifyImage sampleState sampleCtx pixarArgs).1.db = sampleState.db
      ∧ (secureCartoonifyImage sampleState sampleCtx pixarArgs).1.scheduled
          = sampleState.scheduled
      ∧ (∃ e, e ∈ (secureCartoonifyImage sampleState sampleCtx pixarArgs).1.audit.logs
          ∧ e.level = "warning" ∧ e.event = "invalid_style_parameter"
          ∧ ("style", pixarArgs.style) ∈ e.details ∧ ("userId", "alice") ∈ e.details)
      ∧ (∀ db2 : List ImageRec,
          (secureCartoonifyImage { sampleState with db := db2 } sampleCtx pixarArgs).2
            = Except.error "Invalid cartoon style")) :=
  ⟨by decide, by decide, by decide,
   secureCartoonify_invalidStyle sampleState sampleCtx pixarArgs "alice"
     (by decide) (by decide) (by decide)⟩

/-- C6 counterexample: `"mallory"` does not own the record resolved from
`"sid1"`, yet with the invalid style `"pixar"` the call fails with the
invalid-style error, not the unauthorized error — so a non-owner call does
not fail with `Unauthorized` regardless of style validity. -/
theorem secureCartoonify_unauthorized_cex :
    ¬ sampleImage.userId = "mallory"
    ∧ (sampleState.db.filter
        (fun r => r.originalStorageId = pixarArgs.storageId)).head? = some sampleImage
    ∧ (secureCartoonifyImage sampleState mallorysCtx pixarArgs).2
        = Except.error "Invalid cartoon style"
    ∧ ¬ (secureCartoonifyImage sampleState mallorysCtx pixarArgs).2
        = Except.error "Unauthorized access to image" := by
  refine ⟨by decide, by decide, by decide, by decide⟩

/-- C6 (amended): for every authenticated caller whose identity does not own
the resolved record, and every whitelisted style, the call fails with the
unauthorized error and logs a security warning carrying both identities,
leaving the `images` table and the job queue untouched. -/
theorem secureCartoonify_unauthorized (st : SysState) (ctx : Ctx)
    (args : CartoonifyArgs) (u : String) (image : ImageRec)
    (hid : ctx.identity = some ⟨u⟩)
    (hrl : (st.limiter.isAllowed st.now (rateLimitIdentifier ctx)).1 = true)
    (hstyle : allowedStyles.contains args.style = true)
    (hfind : (st.db.filter (fun r => r.originalStorageId = args.storageId)).head?
        = some image)
    (hown : ¬ image.userId = u) :
    (secureCartoonifyImage st ctx args).2 = Except.error "Unauthorized access to image"
    ∧ (secureCartoonifyImage st ctx args).1.db = st.db
    ∧ (secureCartoonifyImage st ctx args).1.scheduled = st.scheduled
    ∧ (∃ e, e ∈ (secureCartoonifyImage st ctx args).1.audit.logs
        ∧ e.level = "warning" ∧ e.event = "unauthorized_image_access"
        ∧ ("userId", u) ∈ e.details ∧ ("imageOwner", image.userId) ∈ e.details) := by
  have hmain : (secureCartoonifyImage st ctx args).2
        = Except.error "Unauthorized access to image"
      ∧ (secureCartoonifyImage st ctx args).1.db = st.db
      ∧ (secureCartoonifyImage st ctx args).1.scheduled = st.scheduled
      ∧ (secureCartoonifyImage st ctx args).1.audit
          = ((st.audit.log st.now "info" "image_processing_request"
              [("function", "handler"),
               ("userId", orUndef (ctx.identity.map (fun i => i.subject))),
               ("timestamp", toString st.now)] none none).log st.now
              "warning" "unauthorized_image_access"
              [("userId", u), ("imageId", toString image.id),
               ("imageOwner", image.userId),
               ("userAgent", orUndef args.userAgent),
               ("ipAddress", orUndef args.ipAddress)] none none).log st.now
              "error" "function_execution_error"
              [("function", "handler"), ("error", "Unauthorized access to image"),
               ("userId", orUndef (ctx.identity.map (fun i => i.subject)))] none none := by
    rw [secureCartoonify_eq_body st ctx args u hid hrl]
    simp only [logTo]
    rw [cartoonifyHandler_unauthorized _ ctx args u image hid hstyle
      (by simpa using hfind) hown]
    simp [logTo]
  refine ⟨hmain.1, hmain.2.1, hmain.2.2.1, ?_⟩
  refine ⟨⟨st.now, "warning", "unauthorized_image_access",
    [("userId", u), ("imageId", toString image.id),
     ("imageOwner", image.userId),
     ("userAgent", orUndef args.userAgent),
     ("ipAddress", orUndef args.ipAddress)], none, none⟩, ?_, rfl, rfl, ?_, ?_⟩
  · rw [hmain.2.2.2]
    exact mem_log_log _ st.now st.now "warning" "unauthorized_image_access"
      "error" "function_execution_error" _ _ none none none none
  · simp
  · simp

/-- Witness for the amended C6: `"mallory"` requests the whitelisted style
`anime` on `"alice"`'s record. -/
theorem secureCartoonify_unauthorized_witness :
    mallorysCtx.identity = some ⟨"mallory"⟩
    ∧ (sampleState.limiter.isAllowed sampleState.now (rateLimitIdentifier mallorysCtx)).1 = true
    ∧ allowedStyles.contains sampleArgs.style = true
    ∧ (sampleState.db.filter
        (fun r => r.originalStorageId = sampleArgs.storageId)).head? = some sampleImage
    ∧ ¬ sampleImage.userId = "mallory"
    ∧ ((secureCartoonifyImage sampleState mallorysCtx sampleArgs).2
          = Except.error "Unauthorized access to image"
      ∧ (secureCartoonifyImage sampleState mallorysCtx sampleArgs).1.db = sampleState.db
      ∧ (secureCartoonifyImage sampleState mallorysCtx sampleArgs).1.scheduled
          = sampleState.scheduled
      ∧ (∃ e, e ∈ (secureCartoonifyImage sampleState mallorysCtx sampleArgs).1.audit.logs
          ∧ e.level = "warning" ∧ e.event = "unauthorized_image_access"
          ∧ ("userId", "mallory") ∈ e.details
          ∧ ("imageOwner", sampleImage.userId) ∈ e.details)) :=
  ⟨by decide, by decide, by decide, by decide, by decide,
   secureCartoonify_unauthorized sampleState mallorysCtx sampleArgs "mallory" sampleImage
     (by decide) (by decide) (by decide) (by decide) (by decide)⟩

/-- C4 exhibit: the rate-limit identifier `withSecurity` computes is
`"anonymous"` for every caller — `.subject` is read from the un-awaited
Promise returned by `getUserIdentity` — so the limiter is keyed by one
shared bucket rather than per identity; and a rate-limited call fails with
the rate-limit error leaving the `images` table and job queue untouched,
shown at a state whose shared `"anonymous"` bucket is already full although
`"alice"` herself never called. -/
theorem secureCartoonify_rateLimit_identifier_bug :
    (∀ ctx : Ctx, rateLimitIdentifier ctx = "anonymous")
    ∧ (secureCartoonifyImage limitedState sampleCtx sampleArgs).2
        = Except.error "Rate limit exceeded. Please try again later."
    ∧ (secureCartoonifyImage limitedState sampleCtx sampleArgs).1.db = limitedState.db
    ∧ (secureCartoonifyImage limitedState sampleCtx sampleArgs).1.scheduled
        = limitedState.scheduled := by
  refine ⟨fun ctx => rfl, by decide, by decide, by decide⟩
